import Mathlib

/-!
Verification of the payment-routing proxy and recurring-donation billing
simulator: a shallow embedding in Lean 4 of the fraud-detection service,
the LLM explanation service with its TTL cache and deterministic fallback,
the payment service's transaction ledger, and the subscription service
with its recurrence sweep, together with theorems settling the frozen
behavioural claims about them.

Modelling conventions:
- JavaScript numbers carrying risk scores become `ℚ`; amounts (integer
  minor units) become `Int`; millisecond clock readings become `Nat`.
- `Math.random() * 0.1` becomes an explicit jitter parameter `j : ℚ`
  with `0 ≤ j < 1/10`; the per-charge success draw of the recurrence
  sweep becomes an explicit oracle `Nat → Bool` indexed by the number of
  transactions recorded so far.
- JavaScript `Date` values become an explicit civil-calendar structure
  (year / 0-based month / 1-based day / milliseconds within the day);
  `Date` comparisons go through conversion to epoch milliseconds, and
  the `setDate` / `setMonth` / `setFullYear` mutations of
  `calculateNextChargeDate` are modelled with their ECMA overflow
  normalisation on calendar-valid inputs.
- `Map` objects become insertion-ordered association lists; the LLM
  string cache becomes a function from structured cache keys (mirroring
  `type + JSON.stringify(data)`) to optional entries.
- The external OpenAI call becomes an explicit outcome parameter: the
  call either throws, or replies with an optional message content.
-/

/-! ## String helpers mirroring the JavaScript string methods used -/

/-- `pat` occurs as a contiguous substring of the character list
(JavaScript `String.prototype.includes`). -/
def containsSub (pat : List Char) : List Char → Bool
  | [] => pat.isEmpty
  | c :: rest => pat.isPrefixOf (c :: rest) || containsSub pat rest

/-- JavaScript `s.includes(pat)`. -/
def strIncludes (s pat : String) : Bool := containsSub pat.data s.data

/-- JavaScript `s.toLowerCase()` (ASCII-faithful). -/
def strLower (s : String) : String := String.mk (s.data.map Char.toLower)

/-- JavaScript `s.toUpperCase()` (ASCII-faithful). -/
def strUpper (s : String) : String := String.mk (s.data.map Char.toUpper)

/-- JavaScript `s.trim()`. -/
def strTrim (s : String) : String :=
  String.mk (((s.data.dropWhile Char.isWhitespace).reverse.dropWhile
    Char.isWhitespace).reverse)

/-- `Array.prototype.join(sep)`. -/
def joinSep (sep : String) : List String → String
  | [] => ""
  | [x] => x
  | x :: y :: rest => x ++ sep ++ joinSep sep (y :: rest)

/-- Decimal digits of a natural number (JavaScript number-to-string for
the integral part). -/
def natDigits (n : Nat) : String := toString n

/-- JavaScript `Math.round`: round half toward positive infinity. -/
def jsRound (q : ℚ) : Int := ⌊q + 1/2⌋

/-- JavaScript `x.toFixed(2)` for the scores appearing here (round to
hundredths, render with exactly two decimals). -/
def toFixed2 (q : ℚ) : String :=
  let n : Int := jsRound (q * 100)
  let sign : String := if n < 0 then "-" else ""
  let m : Nat := n.natAbs
  let frac : Nat := m % 100
  let fracStr : String := if frac < 10 then "0" ++ natDigits frac else natDigits frac
  sign ++ natDigits (m / 100) ++ "." ++ fracStr

/-- `Math.round(q * 100) / 100` — two-decimal rounding of the risk score
in the charge response. -/
def roundTo2 (q : ℚ) : ℚ := (jsRound (q * 100) : ℚ) / 100

/-! ## Fraud detection service (`src/services/fraudDetection.ts`) -/

/-- `ChargeRequest` input record. -/
structure ChargeRequest where
  amount : Int
  currency : String
  source : String
  email : String
deriving DecidableEq, Repr

/-- `FraudRules` configuration (`src/config/fraudRules.json` shape). -/
structure FraudRules where
  suspiciousDomains : List String
  highRiskAmountThreshold : Int
  blockingThreshold : ℚ
  stripeThreshold : ℚ
deriving DecidableEq, Repr

/-- The provider union `'stripe' | 'paypal' | 'blocked'`. -/
inductive Provider where
  | stripe
  | paypal
  | blocked
deriving DecidableEq, Repr

/-- The provider value as the string the source carries. -/
def providerStr : Provider → String
  | .stripe => "stripe"
  | .paypal => "paypal"
  | .blocked => "blocked"

/-- Transaction status union `'success' | 'blocked'`. -/
inductive TxStatus where
  | success
  | blocked
deriving DecidableEq, Repr

/-- Default rules shipped in `fraudRules.json` (quoted in the README). -/
def defaultFraudRules : FraudRules :=
  { suspiciousDomains := [".ru", ".tk", "test.com"]
    highRiskAmountThreshold := 50000
    blockingThreshold := 0.5
    stripeThreshold := 0.3 }

/-- `FraudDetectionService.calculateAmountRisk`. -/
def calculateAmountRisk (rules : FraudRules) (amount : Int) : ℚ :=
  if amount > rules.highRiskAmountThreshold then 0.4
  else if amount > 10000 then 0.2
  else if amount > 1000 then 0.1
  else 0.05

/-- `FraudDetectionService.calculateDomainRisk`. -/
def calculateDomainRisk (rules : FraudRules) (email : String) : ℚ :=
  let hasSuspiciousDomain :=
    rules.suspiciousDomains.any fun domain =>
      strIncludes (strLower email) (strLower domain)
  if hasSuspiciousDomain then 0.3 else 0

/-- `FraudDetectionService.calculateCurrencyRisk`. -/
def calculateCurrencyRisk (currency : String) : ℚ :=
  let riskyCurrencies : List String := ["RUB", "CNY", "KRW"]
  if riskyCurrencies.contains (strUpper currency) then 0.15
  else if strUpper currency ≠ "USD" then 0.05
  else 0

/-- `FraudDetectionService.calculateSourceRisk`. -/
def calculateSourceRisk (source : String) : ℚ :=
  if strIncludes source "test" || strIncludes source "tok_test" then 0.1 else 0

/-- `FraudDetectionService.calculateRiskScore`; the bounded random base
component `Math.random() * 0.1` is the explicit jitter argument `j`. -/
def calculateRiskScore (rules : FraudRules) (j : ℚ) (request : ChargeRequest) : ℚ :=
  let score := j
    + calculateAmountRisk rules request.amount
    + calculateDomainRisk rules request.email
    + calculateCurrencyRisk request.currency
    + calculateSourceRisk request.source
  min (max score 0) 1

/-- `FraudDetectionService.determineProvider`. -/
def determineProvider (rules : FraudRules) (riskScore : ℚ) : Provider :=
  if riskScore ≥ rules.blockingThreshold then .blocked
  else if riskScore ≤ rules.stripeThreshold then .stripe
  else .paypal

/-- `FraudDetectionService.getRiskFactors`. -/
def getRiskFactors (rules : FraudRules) (request : ChargeRequest) : List String :=
  let f0 : List String := []
  let f1 := if request.amount > rules.highRiskAmountThreshold
    then f0 ++ ["large amount"] else f0
  let hasSuspiciousDomain :=
    rules.suspiciousDomains.any fun domain =>
      strIncludes (strLower request.email) (strLower domain)
  let f2 := if hasSuspiciousDomain then f1 ++ ["suspicious email domain"] else f1
  let f3 := if request.currency ≠ "USD" then f2 ++ ["non-USD currency"] else f2
  if strIncludes request.source "test" then f3 ++ ["test payment source"] else f3

/-! ## Theorems for C1 and C2 -/

/-- C1: `determineProvider` returns `blocked` whenever the score is at or
above the blocking threshold (checked first); below it, `stripe` whenever
the score is at or below the stripe threshold; otherwise `paypal`.  In
particular a score exactly at the stripe threshold (when that threshold is
below the blocking one) routes to `stripe`, and a score exactly at the
blocking threshold is blocked. -/
theorem determineProvider_boundary_semantics (rules : FraudRules) (s : ℚ) :
    (rules.blockingThreshold ≤ s → determineProvider rules s = .blocked) ∧
    (s < rules.blockingThreshold → s ≤ rules.stripeThreshold →
      determineProvider rules s = .stripe) ∧
    (s < rules.blockingThreshold → rules.stripeThreshold < s →
      determineProvider rules s = .paypal) ∧
    determineProvider rules rules.blockingThreshold = .blocked ∧
    (rules.stripeThreshold < rules.blockingThreshold →
      determineProvider rules rules.stripeThreshold = .stripe) := by
  unfold determineProvider
  refine ⟨fun h => ?_, fun h1 h2 => ?_, fun h1 h2 => ?_, ?_, fun h => ?_⟩
  · rw [if_pos h]
  · rw [if_neg (by exact not_le.mpr h1), if_pos h2]
  · rw [if_neg (by exact not_le.mpr h1), if_neg (by exact not_le.mpr h2)]
  · rw [if_pos le_rfl]
  · rw [if_neg (by exact not_le.mpr h), if_pos le_rfl]

/-- Witness for C1 at the default thresholds and a concrete score. -/
theorem determineProvider_boundary_semantics_witness :
    determineProvider defaultFraudRules defaultFraudRules.blockingThreshold
        = .blocked ∧
    determineProvider defaultFraudRules defaultFraudRules.stripeThreshold
        = .stripe ∧
    determineProvider defaultFraudRules 0.4 = .paypal := by
  have h := determineProvider_boundary_semantics defaultFraudRules (0.4 : ℚ)
  refine ⟨h.2.2.2.1, h.2.2.2.2 (by norm_num [defaultFraudRules]), ?_⟩
  exact h.2.2.1 (by norm_num [defaultFraudRules]) (by norm_num [defaultFraudRules])

/-- C2: for every charge request, every rule configuration and every
jitter value in `[0, 1/10)`, the computed risk score lies in `[0, 1]`. -/
theorem calculateRiskScore_mem_unit_interval (rules : FraudRules) (j : ℚ)
    (request : ChargeRequest) (hj0 : 0 ≤ j) (hj1 : j < 1/10) :
    0 ≤ calculateRiskScore rules j request ∧
      calculateRiskScore rules j request ≤ 1 := by
  unfold calculateRiskScore
  constructor
  · exact le_min (le_max_right _ _) (by norm_num)
  · exact min_le_right _ _

/-- Witness for C2 at a concrete request, rules and jitter. -/
theorem calculateRiskScore_mem_unit_interval_witness :
    0 ≤ calculateRiskScore defaultFraudRules (1/20)
        ⟨500, "USD", "tok_visa", "user@gmail.com"⟩ ∧
      calculateRiskScore defaultFraudRules (1/20)
        ⟨500, "USD", "tok_visa", "user@gmail.com"⟩ ≤ 1 :=
  calculateRiskScore_mem_unit_interval defaultFraudRules (1/20)
    ⟨500, "USD", "tok_visa", "user@gmail.com"⟩ (by norm_num) (by norm_num)

/-! ## LLM explanation service (`src/services/llmService.ts`) -/

/-- Cache entry: `{response, timestamp, ttl}` in milliseconds. -/
structure CacheEntry where
  response : String
  timestamp : Nat
  ttl : Nat
deriving DecidableEq, Repr

/-- Structured cache key mirroring `createCacheKey(type, data)`, which
serialises as `type + '_' + JSON.stringify(data)`; the two operations'
key spaces are the two constructors. -/
inductive CacheKey where
  | payment (riskScore : ℚ) (provider : Provider) (riskFactors : List String)
  | campaign (description : String)
deriving DecidableEq

/-- The in-memory cache object `LLMCache` (a key maps to at most one
entry). -/
def LLMCache : Type := CacheKey → Option CacheEntry

/-- Service configuration: `enableLLM` from the environment, and whether
the OpenAI client was constructed (`enableLLM` together with an API key),
plus the cache TTL in milliseconds. -/
structure LLMConfig where
  enableLLM : Bool
  openaiSet : Bool
  cacheTTL : Nat
deriving DecidableEq, Repr

/-- Outcome of one external OpenAI chat-completion call: the call throws,
or replies with an optional message content. -/
inductive LLMCallResult where
  | apiError
  | reply (content : Option String)
deriving DecidableEq, Repr

/-- `LLMService.getFromCache`: lazy expiry — an entry older than its TTL
is deleted on read and the read is a miss. -/
def getFromCache (now : Nat) (cache : LLMCache) (key : CacheKey) :
    Option String × LLMCache :=
  match cache key with
  | none => (none, cache)
  | some cached =>
    if now - cached.timestamp > cached.ttl then
      (none, fun k => if k = key then none else cache k)
    else
      (some cached.response, cache)

/-- `LLMService.setCache`. -/
def setCache (cfg : LLMConfig) (now : Nat) (cache : LLMCache) (key : CacheKey)
    (response : String) : LLMCache :=
  fun k => if k = key then
    some { response := response, timestamp := now, ttl := cfg.cacheTTL }
  else cache k

/-- `LLMService.generateFallbackExplanation`. -/
def generateFallbackExplanation (riskScore : ℚ) (provider : Provider)
    (riskFactors : List String) : String :=
  let riskLevel := if riskScore < 0.3 then "low"
    else if riskScore < 0.5 then "moderate" else "high"
  let factorsText := if riskFactors.length > 0
    then " due to " ++ joinSep " and " riskFactors else ""
  if provider = .blocked then
    "Transaction blocked due to " ++ riskLevel ++ " risk score ("
      ++ toFixed2 riskScore ++ ")" ++ factorsText ++ "."
  else
    "Payment routed to " ++ strUpper (providerStr provider) ++ " based on "
      ++ riskLevel ++ " risk score (" ++ toFixed2 riskScore ++ ")"
      ++ factorsText ++ "."

/-- The `explanation` binding of a successful external reply:
`response.choices[0]?.message?.content?.trim() || fallback` (an absent or
whitespace-only content falls back). -/
def replyText (riskScore : ℚ) (provider : Provider) (riskFactors : List String) :
    Option String → String
  | some s =>
    if strTrim s = "" then generateFallbackExplanation riskScore provider riskFactors
    else strTrim s
  | none => generateFallbackExplanation riskScore provider riskFactors

/-- Result of `generatePaymentExplanation`: the text, the cache after the
call, and whether an external OpenAI request was performed. -/
structure ExplanationOutcome where
  text : String
  cache : LLMCache
  calledExternal : Bool

/-- `LLMService.generatePaymentExplanation`.  The `request` argument only
feeds the prompt of the external call, which is abstracted by `call`. -/
def generatePaymentExplanation (cfg : LLMConfig) (now : Nat)
    (call : LLMCallResult) (_request : ChargeRequest) (riskScore : ℚ)
    (provider : Provider) (riskFactors : List String) (cache : LLMCache) :
    ExplanationOutcome :=
  if !cfg.enableLLM || !cfg.openaiSet then
    { text := generateFallbackExplanation riskScore provider riskFactors
      cache := cache, calledExternal := false }
  else
    match getFromCache now cache (CacheKey.payment riskScore provider riskFactors) with
    | (some cached, cache') =>
      { text := cached, cache := cache', calledExternal := false }
    | (none, cache') =>
      match call with
      | .apiError =>
        { text := generateFallbackExplanation riskScore provider riskFactors
          cache := cache', calledExternal := true }
      | .reply content =>
        { text := replyText riskScore provider riskFactors content
          cache := setCache cfg now cache'
            (CacheKey.payment riskScore provider riskFactors)
            (replyText riskScore provider riskFactors content)
          calledExternal := true }

/-- `LLMService.clearExpiredCache` (the optional explicit sweep). -/
def clearExpiredCache (now : Nat) (cache : LLMCache) : LLMCache :=
  fun k => match cache k with
    | none => none
    | some cached =>
      if now - cached.timestamp > cached.ttl then none else some cached

/-! ## Theorems for C6 and C7 -/

/-- The risk-level word of the fallback template (the `riskLevel` binding
in `generateFallbackExplanation`). -/
def fallbackRiskLevel (riskScore : ℚ) : String :=
  if riskScore < 0.3 then "low" else if riskScore < 0.5 then "moderate" else "high"

/-- The optional factor clause of the fallback template (the
`factorsText` binding in `generateFallbackExplanation`). -/
def fallbackFactorClause (riskFactors : List String) : String :=
  if riskFactors.length > 0 then " due to " ++ joinSep " and " riskFactors else ""

/-- C6 counterexample: for a routed (non-blocked) provider the fallback
text reads `based on`, not `due to` as the claimed template states. -/
theorem generateFallbackExplanation_counterexample :
    generateFallbackExplanation 0.1 .stripe []
        = "Payment routed to STRIPE based on low risk score (0.10)." ∧
    generateFallbackExplanation 0.1 .stripe []
        ≠ "Payment routed to STRIPE due to low risk score (0.10)." := by
  have hfix : toFixed2 0.1 = "0.10" := by
    have h : jsRound ((0.1 : ℚ) * 100) = 10 := by norm_num [jsRound]
    simp only [toFixed2, h]
    decide
  have h1 : generateFallbackExplanation 0.1 .stripe []
      = "Payment routed to STRIPE based on low risk score (0.10)." := by
    simp only [generateFallbackExplanation, hfix]
    norm_num
    decide
  refine ⟨h1, ?_⟩
  rw [h1]
  decide

/-- C6 (amended): the deterministic fallback explanation follows the
template `Transaction blocked due to … | Payment routed to PROVIDER based
on …` followed by `{risk-level} risk score (X.XX){optional factor
clause}.`, with risk level low below 0.3, moderate below 0.5 and high
otherwise, and the factor clause present exactly when the factor list is
non-empty. -/
theorem generateFallbackExplanation_template (riskScore : ℚ)
    (provider : Provider) (riskFactors : List String) :
    (provider = .blocked →
      generateFallbackExplanation riskScore provider riskFactors
        = "Transaction blocked due to " ++ fallbackRiskLevel riskScore
          ++ " risk score (" ++ toFixed2 riskScore ++ ")"
          ++ fallbackFactorClause riskFactors ++ ".") ∧
    (provider ≠ .blocked →
      generateFallbackExplanation riskScore provider riskFactors
        = "Payment routed to " ++ strUpper (providerStr provider)
          ++ " based on " ++ fallbackRiskLevel riskScore
          ++ " risk score (" ++ toFixed2 riskScore ++ ")"
          ++ fallbackFactorClause riskFactors ++ ".") ∧
    (riskScore < 0.3 → fallbackRiskLevel riskScore = "low") ∧
    (0.3 ≤ riskScore → riskScore < 0.5 →
      fallbackRiskLevel riskScore = "moderate") ∧
    (0.5 ≤ riskScore → fallbackRiskLevel riskScore = "high") ∧
    (riskFactors = [] → fallbackFactorClause riskFactors = "") ∧
    (riskFactors ≠ [] → fallbackFactorClause riskFactors
        = " due to " ++ joinSep " and " riskFactors) := by
  refine ⟨fun hp => ?_, fun hp => ?_, fun h => ?_, fun h1 h2 => ?_,
    fun h => ?_, fun h => ?_, fun h => ?_⟩
  · subst hp
    simp [generateFallbackExplanation, fallbackRiskLevel, fallbackFactorClause]
  · simp [generateFallbackExplanation, fallbackRiskLevel,
      fallbackFactorClause, hp]
  · simp only [fallbackRiskLevel, if_pos h]
  · simp only [fallbackRiskLevel, if_neg (not_lt.mpr h1), if_pos h2]
  · have h3 : ¬ riskScore < 0.3 := by push_neg; linarith
    have h5 : ¬ riskScore < 0.5 := not_lt.mpr h
    simp only [fallbackRiskLevel, if_neg h3, if_neg h5]
  · simp only [fallbackFactorClause, h, List.length_nil, gt_iff_lt,
      lt_self_iff_false, if_false]
  · have : riskFactors.length > 0 := List.length_pos.mpr h
    simp only [fallbackFactorClause, if_pos this]

/-- Witness for C6's amended template at concrete inputs. -/
theorem generateFallbackExplanation_template_witness :
    generateFallbackExplanation 0.6 .blocked ["large amount"]
        = "Transaction blocked due to " ++ fallbackRiskLevel 0.6
          ++ " risk score (" ++ toFixed2 0.6 ++ ")"
          ++ fallbackFactorClause ["large amount"] ++ "." ∧
    fallbackRiskLevel 0.6 = "high" ∧
    fallbackFactorClause ["large amount"]
        = " due to " ++ joinSep " and " ["large amount"] :=
  ⟨(generateFallbackExplanation_template 0.6 .blocked ["large amount"]).1 rfl,
   (generateFallbackExplanation_template 0.6 .blocked
      ["large amount"]).2.2.2.2.1 (by norm_num),
   (generateFallbackExplanation_template 0.6 .blocked
      ["large amount"]).2.2.2.2.2.2 (by simp)⟩

/-- C7: a second explanation request with identical inputs arriving
within the TTL of the first's cache write returns the same text and makes
no external call, whatever the second external outcome would have been;
and a read that finds an entry whose TTL has elapsed deletes it and is a
miss (lazy eviction). -/
theorem explanation_cache_ttl_semantics (cfg : LLMConfig)
    (request : ChargeRequest) (riskScore : ℚ) (provider : Provider)
    (riskFactors : List String) (cache : LLMCache) (t1 t2 : Nat)
    (content : Option String) (call2 : LLMCallResult)
    (hEnable : cfg.enableLLM = true) (hOpenai : cfg.openaiSet = true)
    (hCold : cache (CacheKey.payment riskScore provider riskFactors) = none)
    (hTTL : t2 - t1 ≤ cfg.cacheTTL) :
    (let r1 := generatePaymentExplanation cfg t1 (.reply content) request
        riskScore provider riskFactors cache
     let r2 := generatePaymentExplanation cfg t2 call2 request
        riskScore provider riskFactors r1.cache
     r2.text = r1.text ∧ r2.calledExternal = false ∧ r1.calledExternal = true) ∧
    (∀ (c : LLMCache) (key : CacheKey) (e : CacheEntry) (now : Nat),
      c key = some e → now - e.timestamp > e.ttl →
      (getFromCache now c key).1 = none ∧ (getFromCache now c key).2 key = none) := by
  constructor
  · have hgate : (!cfg.enableLLM || !cfg.openaiSet) = false := by
      rw [hEnable, hOpenai]; rfl
    have hget1 : getFromCache t1 cache
        (CacheKey.payment riskScore provider riskFactors) = (none, cache) := by
      unfold getFromCache; rw [hCold]
    have hr1 : generatePaymentExplanation cfg t1 (.reply content) request
        riskScore provider riskFactors cache
        = { text := replyText riskScore provider riskFactors content
            cache := setCache cfg t1 cache
              (CacheKey.payment riskScore provider riskFactors)
              (replyText riskScore provider riskFactors content)
            calledExternal := true } := by
      rw [generatePaymentExplanation, hgate]
      rw [if_neg Bool.false_ne_true]
      rw [hget1]
    have hhit : getFromCache t2
        (setCache cfg t1 cache (CacheKey.payment riskScore provider riskFactors)
          (replyText riskScore provider riskFactors content))
        (CacheKey.payment riskScore provider riskFactors)
        = (some (replyText riskScore provider riskFactors content),
           setCache cfg t1 cache (CacheKey.payment riskScore provider riskFactors)
             (replyText riskScore provider riskFactors content)) := by
      unfold getFromCache setCache
      rw [if_pos rfl]
      dsimp only
      rw [if_neg (not_lt.mpr hTTL)]
    have hr2 : generatePaymentExplanation cfg t2 call2 request
        riskScore provider riskFactors
        (setCache cfg t1 cache (CacheKey.payment riskScore provider riskFactors)
          (replyText riskScore provider riskFactors content))
        = { text := replyText riskScore provider riskFactors content
            cache := setCache cfg t1 cache
              (CacheKey.payment riskScore provider riskFactors)
              (replyText riskScore provider riskFactors content)
            calledExternal := false } := by
      rw [generatePaymentExplanation, hgate]
      rw [if_neg Bool.false_ne_true]
      rw [hhit]
    dsimp only
    rw [hr1]
    dsimp only
    rw [hr2]
    exact ⟨rfl, rfl, rfl⟩
  · intro c key e now hsome hexp
    unfold getFromCache
    rw [hsome]
    dsimp only
    rw [if_pos hexp]
    exact ⟨rfl, by simp⟩

/-- Witness for C7 at a concrete configuration, key and pair of times. -/
theorem explanation_cache_ttl_semantics_witness :
    (let r1 := generatePaymentExplanation ⟨true, true, 300000⟩ 0
        (.reply (some "Routine low-risk payment.")) ⟨500, "USD", "tok_visa", "user@gmail.com"⟩
        0.1 .stripe [] (fun _ => none)
     let r2 := generatePaymentExplanation ⟨true, true, 300000⟩ 1000
        .apiError ⟨500, "USD", "tok_visa", "user@gmail.com"⟩
        0.1 .stripe [] r1.cache
     r2.text = r1.text ∧ r2.calledExternal = false ∧ r1.calledExternal = true) ∧
    (∀ (c : LLMCache) (key : CacheKey) (e : CacheEntry) (now : Nat),
      c key = some e → now - e.timestamp > e.ttl →
      (getFromCache now c key).1 = none ∧ (getFromCache now c key).2 key = none) :=
  explanation_cache_ttl_semantics ⟨true, true, 300000⟩
    ⟨500, "USD", "tok_visa", "user@gmail.com"⟩ 0.1 .stripe [] (fun _ => none)
    0 1000 (some "Routine low-risk payment.") .apiError rfl rfl rfl (by norm_num)

/-! ## JavaScript `Date` model

A civil-calendar value: year, 0-based month (as `getMonth` reports it),
1-based day of month (as `getDate` reports it) and milliseconds within
the day.  Comparisons between `Date` objects compare their epoch
milliseconds, reconstructed ECMA-style from the civil fields. -/

structure JsDate where
  year : Nat
  month : Nat
  day : Nat
  msOfDay : Nat
deriving DecidableEq, Repr

/-- Gregorian leap-year test. -/
def isLeapYear (y : Nat) : Bool := (y % 4 = 0 && y % 100 ≠ 0) || y % 400 = 0

/-- Days in a 0-based month of a given year. -/
def daysInMonth (y m : Nat) : Nat :=
  if m = 1 then (if isLeapYear y then 29 else 28)
  else if m = 3 ∨ m = 5 ∨ m = 8 ∨ m = 10 then 30
  else 31

/-- Days in all years before year `y` (year 0 as the origin). -/
def daysBeforeYear : Nat → Nat
  | 0 => 0
  | y + 1 => daysBeforeYear y + (if isLeapYear y then 366 else 365)

/-- Days in the months of year `y` strictly before 0-based month `m`. -/
def daysBeforeMonth (y : Nat) : Nat → Nat
  | 0 => 0
  | m + 1 => daysBeforeMonth y m + daysInMonth y m

/-- ECMA `MakeDay` for a normalised civil date: the day number of the
date. -/
def toEpochDay (d : JsDate) : Nat :=
  daysBeforeYear d.year + daysBeforeMonth d.year d.month + (d.day - 1)

/-- ECMA `MakeDate`: epoch milliseconds of the date. -/
def toEpochMs (d : JsDate) : Nat := toEpochDay d * 86400000 + d.msOfDay

/-- A calendar-consistent date: month in range, day within the month,
time within the day. -/
def ValidDate (d : JsDate) : Prop :=
  d.month < 12 ∧ 1 ≤ d.day ∧ d.day ≤ daysInMonth d.year d.month ∧
    d.msOfDay < 86400000

instance (d : JsDate) : Decidable (ValidDate d) := by
  unfold ValidDate; infer_instance

/-- `date.setDate(date.getDate() + n)` for the small steps used here
(`n ≤ 28`): ECMA `MakeDay` normalisation rolls an overflowing day into
the following month. -/
def addDays (n : Nat) (d : JsDate) : JsDate :=
  if d.day + n ≤ daysInMonth d.year d.month then { d with day := d.day + n }
  else if d.month + 1 < 12 then
    { d with month := d.month + 1, day := d.day + n - daysInMonth d.year d.month }
  else
    { year := d.year + 1, month := 0,
      day := d.day + n - daysInMonth d.year d.month, msOfDay := d.msOfDay }

/-- `date.setMonth(date.getMonth() + 1)`: step to the next month, with
ECMA normalisation of a day-of-month that exceeds the target month's
length. -/
def addMonth (d : JsDate) : JsDate :=
  let y := if d.month + 1 < 12 then d.year else d.year + 1
  let m := if d.month + 1 < 12 then d.month + 1 else 0
  if d.day ≤ daysInMonth y m then
    { year := y, month := m, day := d.day, msOfDay := d.msOfDay }
  else if m + 1 < 12 then
    { year := y, month := m + 1, day := d.day - daysInMonth y m,
      msOfDay := d.msOfDay }
  else
    { year := y + 1, month := 0, day := d.day - daysInMonth y m,
      msOfDay := d.msOfDay }

/-- `date.setFullYear(date.getFullYear() + 1)`, with ECMA normalisation
(Feb 29 of a leap year lands on Mar 1). -/
def addYear (d : JsDate) : JsDate :=
  if d.day ≤ daysInMonth (d.year + 1) d.month then { d with year := d.year + 1 }
  else if d.month + 1 < 12 then
    { year := d.year + 1, month := d.month + 1,
      day := d.day - daysInMonth (d.year + 1) d.month, msOfDay := d.msOfDay }
  else
    { year := d.year + 2, month := 0,
      day := d.day - daysInMonth (d.year + 1) d.month, msOfDay := d.msOfDay }

/-- `SubscriptionService.calculateNextChargeDate` (the `switch` on the
interval string, defaulting to monthly). -/
def calculateNextChargeDate (interval : String) (baseDate : JsDate) : JsDate :=
  if interval = "daily" then addDays 1 baseDate
  else if interval = "weekly" then addDays 7 baseDate
  else if interval = "monthly" then addMonth baseDate
  else if interval = "yearly" then addYear baseDate
  else addMonth baseDate

/-! ### Calendar arithmetic lemmas -/

theorem daysInMonth_pos (y m : Nat) : 0 < daysInMonth y m := by
  unfold daysInMonth
  split_ifs <;> omega

theorem daysInMonth_le (y m : Nat) : daysInMonth y m ≤ 31 := by
  unfold daysInMonth
  split_ifs <;> omega

theorem daysInMonth_ge (y m : Nat) : 28 ≤ daysInMonth y m := by
  unfold daysInMonth
  split_ifs <;> omega

theorem daysBeforeMonth_twelve (y : Nat) :
    daysBeforeMonth y 12 = if isLeapYear y then 366 else 365 := by
  cases h : isLeapYear y <;>
    simp [daysBeforeMonth, daysInMonth, h]

theorem daysBeforeYear_succ (y : Nat) :
    daysBeforeYear (y + 1)
      = daysBeforeYear y + (if isLeapYear y then 366 else 365) := rfl

/-- Adding `n ≤ 28` days advances the epoch-day number by exactly `n`. -/
theorem toEpochDay_addDays (n : Nat) (d : JsDate) (hn : n ≤ 28)
    (hd : ValidDate d) : toEpochDay (addDays n d) = toEpochDay d + n := by
  obtain ⟨hm, hd1, hd2, _⟩ := hd
  unfold addDays toEpochDay
  split_ifs with h1 h2
  · dsimp only
    omega
  · dsimp only
    have : daysBeforeMonth d.year (d.month + 1)
        = daysBeforeMonth d.year d.month + daysInMonth d.year d.month := rfl
    omega
  · -- December: month 11 rolls to January of the next year
    have hm11 : d.month = 11 := by omega
    dsimp only
    rw [daysBeforeYear_succ]
    have h12 : daysBeforeMonth d.year 12
        = daysBeforeMonth d.year 11 + daysInMonth d.year 11 := rfl
    have h366 := daysBeforeMonth_twelve d.year
    have hsum : (if isLeapYear d.year then (366 : Nat) else 365)
        = daysBeforeMonth d.year 11 + daysInMonth d.year 11 := by
      rw [← h366, h12]
    have h0 : daysBeforeMonth (d.year + 1) 0 = 0 := rfl
    rw [hm11] at hd2 h1 ⊢
    rw [hsum, h0]
    omega

/-- `addDays` preserves the time of day. -/
theorem addDays_msOfDay (n : Nat) (d : JsDate) :
    (addDays n d).msOfDay = d.msOfDay := by
  unfold addDays
  split_ifs <;> rfl

theorem daysBeforeMonth_mono (y : Nat) {m m' : Nat} (h : m ≤ m') :
    daysBeforeMonth y m ≤ daysBeforeMonth y m' := by
  induction m' with
  | zero => simp_all
  | succ k ih =>
    rcases Nat.lt_or_ge m (k + 1) with hlt | hge
    · exact le_trans (ih (by omega)) (Nat.le_add_right _ _)
    · have : m = k + 1 := by omega
      subst this
      exact le_rfl

theorem daysBeforeMonth_le_335 (y : Nat) {m : Nat} (h : m < 12) :
    daysBeforeMonth y m ≤ 335 := by
  have h1 : daysBeforeMonth y m ≤ daysBeforeMonth y 11 :=
    daysBeforeMonth_mono y (by omega)
  have h2 : daysBeforeMonth y 12
      = daysBeforeMonth y 11 + daysInMonth y 11 := rfl
  have h3 := daysBeforeMonth_twelve y
  have h4 : daysInMonth y 11 = 31 := rfl
  split_ifs at h3 <;> omega

theorem daysBeforeYear_succ_ge (y : Nat) :
    daysBeforeYear y + 365 ≤ daysBeforeYear (y + 1) := by
  rw [daysBeforeYear_succ]
  split_ifs <;> omega

/-- Stepping to the next month strictly advances the day number. -/
theorem toEpochDay_addMonth_gt (d : JsDate) (hd : ValidDate d) :
    toEpochDay d < toEpochDay (addMonth d) := by
  obtain ⟨hm, hd1, hd2, _⟩ := hd
  unfold addMonth toEpochDay
  by_cases hlt : d.month + 1 < 12
  · simp only [if_pos hlt]
    have hstep : daysBeforeMonth d.year (d.month + 1)
        = daysBeforeMonth d.year d.month + daysInMonth d.year d.month := rfl
    have hpos := daysInMonth_pos d.year d.month
    split_ifs with h1 h2
    · dsimp only
      omega
    · dsimp only
      have hstep2 : daysBeforeMonth d.year (d.month + 1 + 1)
          = daysBeforeMonth d.year (d.month + 1)
            + daysInMonth d.year (d.month + 1) := rfl
      omega
    · -- would need month+2 = 12, i.e. d.month = 10; then the target month
      -- is November (30 days) and the day of month is at most 31, but a
      -- 31-day source month before November is October (31), so the
      -- overflowed day 31 ≤ 30 fails only for day = 31; the branch is
      -- still well-defined and lands in year + 1, month 0
      dsimp only
      have hm10 : d.month = 10 := by omega
      have h31 : daysInMonth d.year 11 = 31 := rfl
      rw [hm10] at h1 hd2 ⊢
      norm_num at h1 ⊢
      have h30 : daysInMonth d.year 10 = 30 := by norm_num [daysInMonth]
      omega
  · -- December
    have hm11 : d.month = 11 := by omega
    simp only [if_neg hlt]
    have h31 : daysInMonth (d.year + 1) 0 = 31 := rfl
    have h31' : daysInMonth d.year 11 = 31 := rfl
    have hy := daysBeforeYear_succ_ge d.year
    have h335 := daysBeforeMonth_le_335 d.year (show d.month < 12 by omega)
    split_ifs with h1 h2
    · dsimp only
      have h0 : daysBeforeMonth (d.year + 1) 0 = 0 := rfl
      omega
    · dsimp only
      rw [hm11] at hd2
      omega
    · dsimp only
      rw [hm11] at hd2
      omega

/-- Stepping to the next year strictly advances the day number. -/
theorem toEpochDay_addYear_gt (d : JsDate) (hd : ValidDate d) :
    toEpochDay d < toEpochDay (addYear d) := by
  obtain ⟨hm, hd1, hd2, _⟩ := hd
  unfold addYear toEpochDay
  have hy := daysBeforeYear_succ_ge d.year
  have h335 := daysBeforeMonth_le_335 d.year hm
  split_ifs with h1 h2
  · dsimp only
    have : daysBeforeMonth (d.year + 1) d.month ≥ 0 := Nat.zero_le _
    omega
  · dsimp only
    have hstep : daysBeforeMonth (d.year + 1) (d.month + 1)
        = daysBeforeMonth (d.year + 1) d.month
          + daysInMonth (d.year + 1) d.month := rfl
    omega
  · -- d.month = 11, but December always has 31 days so the day cannot
    -- overflow; contradiction
    have hm11 : d.month = 11 := by omega
    rw [hm11] at h1 hd2
    have h31 : daysInMonth (d.year + 1) 11 = 31 := rfl
    have h31' : daysInMonth d.year 11 = 31 := rfl
    omega

theorem addMonth_msOfDay (d : JsDate) : (addMonth d).msOfDay = d.msOfDay := by
  unfold addMonth
  dsimp only
  split_ifs <;> rfl

theorem addYear_msOfDay (d : JsDate) : (addYear d).msOfDay = d.msOfDay := by
  unfold addYear
  split_ifs <;> rfl

/-- Whatever the interval string, the next charge date is strictly in the
future (in epoch milliseconds) relative to its base date. -/
theorem toEpochMs_calculateNextChargeDate_gt (interval : String) (d : JsDate)
    (hd : ValidDate d) :
    toEpochMs d < toEpochMs (calculateNextChargeDate interval d) := by
  have hday : ∀ n, 1 ≤ n → n ≤ 28 → toEpochMs d < toEpochMs (addDays n d) := by
    intro n h1 h28
    unfold toEpochMs
    rw [toEpochDay_addDays n d h28 hd, addDays_msOfDay]
    have : toEpochDay d * 86400000 + 86400000 ≤ (toEpochDay d + n) * 86400000 := by
      nlinarith
    omega
  have hmonth : toEpochMs d < toEpochMs (addMonth d) := by
    unfold toEpochMs
    rw [addMonth_msOfDay]
    have := toEpochDay_addMonth_gt d hd
    nlinarith
  have hyear : toEpochMs d < toEpochMs (addYear d) := by
    unfold toEpochMs
    rw [addYear_msOfDay]
    have := toEpochDay_addYear_gt d hd
    nlinarith
  unfold calculateNextChargeDate
  split_ifs
  · exact hday 1 (by omega) (by omega)
  · exact hday 7 (by omega) (by omega)
  · exact hmonth
  · exact hyear
  · exact hmonth

/-! ## Subscription service (`src/services/subscriptionService.ts`) -/

/-- `CampaignAnalysis` result of `analyzeCampaign`. -/
structure CampaignAnalysis where
  tags : List String
  summary : String
deriving DecidableEq, Repr

/-- `SubscriptionRequest` input record. -/
structure SubscriptionRequest where
  donorId : String
  amount : Int
  currency : String
  interval : String
  campaignDescription : String
deriving DecidableEq, Repr

/-- The `Subscription` entity. -/
structure Subscription where
  id : String
  donorId : String
  amount : Int
  currency : String
  interval : String
  campaignDescription : String
  tags : List String
  summary : String
  createdAt : JsDate
  lastChargedAt : Option JsDate
  nextChargeAt : JsDate
  isActive : Bool
deriving DecidableEq, Repr

/-- Status union of a recurring charge attempt: `'success' | 'failed'`. -/
inductive SubTxStatus where
  | success
  | failed
deriving DecidableEq, Repr

/-- `SubscriptionTransaction` ledger record. -/
structure SubscriptionTransaction where
  id : String
  subscriptionId : String
  donorId : String
  amount : Int
  currency : String
  status : SubTxStatus
  timestamp : JsDate
  type : String
deriving DecidableEq, Repr

/-- The mutable state of a `SubscriptionService` instance: the
`subscriptions` map (insertion-ordered, one entry per donor key) and the
`transactions` array. -/
structure SubState where
  subscriptions : List (String × Subscription)
  transactions : List SubscriptionTransaction
deriving DecidableEq, Repr

/-- `Map.prototype.set`: overwrite in place if the key exists, else
append. -/
def mapSet {β : Type} : List (String × β) → String → β → List (String × β)
  | [], k, v => [(k, v)]
  | (a, b) :: rest, k, v =>
    if a = k then (k, v) :: rest else (a, b) :: mapSet rest k v

theorem lookup_cons {β : Type} (k' a : String) (b : β) (rest : List (String × β)) :
    List.lookup k' ((a, b) :: rest)
      = if k' = a then some b else List.lookup k' rest := by
  by_cases h : k' = a
  · subst h
    simp [List.lookup]
  · simp [List.lookup, h, beq_eq_false_iff_ne.mpr h]

theorem mapSet_lookup {β : Type} (l : List (String × β)) (k k' : String) (v : β) :
    List.lookup k' (mapSet l k v)
      = if k' = k then some v else List.lookup k' l := by
  induction l with
  | nil =>
    simp only [mapSet]
    rw [lookup_cons]
  | cons p rest ih =>
    obtain ⟨a, b⟩ := p
    simp only [mapSet]
    by_cases hak : a = k
    · subst hak
      rw [if_pos rfl, lookup_cons, lookup_cons]
      by_cases h : k' = a
      · simp [h]
      · simp [h]
    · rw [if_neg hak, lookup_cons, lookup_cons, ih]
      by_cases h : k' = a
      · subst h
        rw [if_pos rfl, if_neg hak, if_pos rfl]
      · rw [if_neg h]
        by_cases hk : k' = k
        · rw [if_pos hk, if_pos hk]
        · rw [if_neg hk, if_neg hk, if_neg h]

/-- `SubscriptionService.createSubscription`: the campaign analysis is
the awaited result of `llmService.analyzeCampaign`, and the generated
`sub_…` id is the explicit `subId` argument. -/
def createSubscription (subId : String) (analysis : CampaignAnalysis)
    (now : JsDate) (request : SubscriptionRequest) (st : SubState) :
    Subscription × SubState :=
  let subscription : Subscription :=
    { id := subId
      donorId := request.donorId
      amount := request.amount
      currency := request.currency
      interval := request.interval
      campaignDescription := request.campaignDescription
      tags := analysis.tags
      summary := analysis.summary
      createdAt := now
      lastChargedAt := none
      nextChargeAt := calculateNextChargeDate request.interval now
      isActive := true }
  (subscription,
   { st with subscriptions := mapSet st.subscriptions request.donorId subscription })

/-- `SubscriptionService.cancelSubscription`. -/
def cancelSubscription (donorId : String) (st : SubState) : Bool × SubState :=
  match List.lookup donorId st.subscriptions with
  | none => (false, st)
  | some subscription =>
    (true,
     { st with
        subscriptions :=
          mapSet st.subscriptions donorId { subscription with isActive := false } })

/-- `SubscriptionService.getSubscriptionByDonorId`. -/
def getSubscriptionByDonorId (donorId : String) (st : SubState) :
    Option Subscription :=
  List.lookup donorId st.subscriptions

/-- Stable insertion step of `Array.prototype.sort` by descending
`createdAt.getTime()`. -/
def insertByNewest (x : Subscription) : List Subscription → List Subscription
  | [] => [x]
  | y :: ys =>
    if toEpochMs y.createdAt < toEpochMs x.createdAt then x :: y :: ys
    else y :: insertByNewest x ys

/-- Sort newest-first by `createdAt` (stable insertion sort). -/
def sortByNewest (l : List Subscription) : List Subscription :=
  l.foldr insertByNewest []

/-- `SubscriptionService.getActiveSubscriptions`. -/
def getActiveSubscriptions (st : SubState) : List Subscription :=
  sortByNewest ((st.subscriptions.map Prod.snd).filter (·.isActive))

/-- The nondeterministic inputs of a sweep: the per-charge
`Math.random() > 0.05` success draw and the generated `txn_…` id, both
indexed by the number of transactions recorded when the charge runs. -/
structure SweepEnv where
  rand : Nat → Bool
  txnId : Nat → String

/-- `SubscriptionService.chargeSubscription`: record a transaction; on
success advance `lastChargedAt` / `nextChargeAt`, on failure leave the
subscription unchanged (it stays due). -/
def chargeSubscription (env : SweepEnv) (now : JsDate) (st : SubState)
    (subscription : Subscription) : SubState :=
  let success := env.rand st.transactions.length
  let txn : SubscriptionTransaction :=
    { id := env.txnId st.transactions.length
      subscriptionId := subscription.id
      donorId := subscription.donorId
      amount := subscription.amount
      currency := subscription.currency
      status := if success then .success else .failed
      timestamp := now
      type := "recurring" }
  let st' : SubState := { st with transactions := st.transactions ++ [txn] }
  if success then
    { st' with
        subscriptions :=
          mapSet st'.subscriptions subscription.donorId
            { subscription with
                lastChargedAt := some now
                nextChargeAt := calculateNextChargeDate subscription.interval now } }
  else st'

/-- One iteration of the `processRecurringCharges` loop over one
snapshot element.  The loop variable is the live map entry for the
snapshot element's donor key (object identity in the source), so the
due check reads the current state. -/
def sweepStep (env : SweepEnv) (now : JsDate) (s : SubState)
    (subscription : Subscription) : SubState :=
  match List.lookup subscription.donorId s.subscriptions with
  | some current =>
    if toEpochMs now ≥ toEpochMs current.nextChargeAt then
      chargeSubscription env now s current
    else s
  | none => s

/-- `SubscriptionService.processRecurringCharges`: iterate over the
snapshot of active subscriptions and charge each one that is due. -/
def processRecurringCharges (env : SweepEnv) (now : JsDate) (st : SubState) :
    SubState :=
  (getActiveSubscriptions st).foldl (sweepStep env now) st

/-- `SubscriptionService.triggerChargeProcessing` — it simply awaits
`processRecurringCharges`, with no reentrancy guard. -/
def triggerChargeProcessing (env : SweepEnv) (now : JsDate) (st : SubState) :
    SubState :=
  processRecurringCharges env now st

/-! ## Theorems for C5, C3 and C10 -/

/-- C5: a subscription created at `now` has `createdAt = now` and
`nextChargeAt = calculateNextChargeDate interval now`; for interval
`"weekly"` that date is exactly 7 days after `createdAt` — same time of
day, epoch-day number advanced by exactly 7, epoch milliseconds advanced
by exactly `7 * 86400000`. -/
theorem createSubscription_nextChargeAt (subId : String)
    (analysis : CampaignAnalysis) (now : JsDate) (request : SubscriptionRequest)
    (st : SubState) (hv : ValidDate now) :
    (createSubscription subId analysis now request st).1.createdAt = now ∧
    (createSubscription subId analysis now request st).1.nextChargeAt
      = calculateNextChargeDate request.interval now ∧
    (request.interval = "weekly" →
      toEpochDay (createSubscription subId analysis now request st).1.nextChargeAt
          = toEpochDay (createSubscription subId analysis now request st).1.createdAt + 7 ∧
      (createSubscription subId analysis now request st).1.nextChargeAt.msOfDay
          = (createSubscription subId analysis now request st).1.createdAt.msOfDay ∧
      toEpochMs (createSubscription subId analysis now request st).1.nextChargeAt
          = toEpochMs (createSubscription subId analysis now request st).1.createdAt
            + 7 * 86400000) := by
  refine ⟨rfl, rfl, fun hw => ?_⟩
  have hcalc : calculateNextChargeDate request.interval now = addDays 7 now := by
    rw [hw]
    unfold calculateNextChargeDate
    rw [if_neg (by decide), if_pos rfl]
  have hsub : (createSubscription subId analysis now request st).1.nextChargeAt
      = addDays 7 now := hcalc
  have hcreated : (createSubscription subId analysis now request st).1.createdAt
      = now := rfl
  rw [hsub, hcreated]
  have hday := toEpochDay_addDays 7 now (by omega) hv
  have hms := addDays_msOfDay 7 now
  refine ⟨hday, hms, ?_⟩
  unfold toEpochMs
  rw [hday, hms]
  ring

/-- Witness for C5 at a concrete weekly request created on
2024-01-15T12:00:00. -/
theorem createSubscription_nextChargeAt_witness :
    (createSubscription "sub_1" ⟨["charitable cause"], "Weekly giving"⟩
        ⟨2024, 0, 15, 43200000⟩
        ⟨"donor1", 500, "USD", "weekly", "Weekly giving to a cause"⟩
        ⟨[], []⟩).1.createdAt = ⟨2024, 0, 15, 43200000⟩ ∧
    (createSubscription "sub_1" ⟨["charitable cause"], "Weekly giving"⟩
        ⟨2024, 0, 15, 43200000⟩
        ⟨"donor1", 500, "USD", "weekly", "Weekly giving to a cause"⟩
        ⟨[], []⟩).1.nextChargeAt
      = calculateNextChargeDate "weekly" ⟨2024, 0, 15, 43200000⟩ ∧
    ("weekly" = "weekly" →
      toEpochDay (createSubscription "sub_1" ⟨["charitable cause"], "Weekly giving"⟩
          ⟨2024, 0, 15, 43200000⟩
          ⟨"donor1", 500, "USD", "weekly", "Weekly giving to a cause"⟩
          ⟨[], []⟩).1.nextChargeAt
        = toEpochDay (createSubscription "sub_1" ⟨["charitable cause"], "Weekly giving"⟩
            ⟨2024, 0, 15, 43200000⟩
            ⟨"donor1", 500, "USD", "weekly", "Weekly giving to a cause"⟩
            ⟨[], []⟩).1.createdAt + 7 ∧
      (createSubscription "sub_1" ⟨["charitable cause"], "Weekly giving"⟩
          ⟨2024, 0, 15, 43200000⟩
          ⟨"donor1", 500, "USD", "weekly", "Weekly giving to a cause"⟩
          ⟨[], []⟩).1.nextChargeAt.msOfDay
        = (createSubscription "sub_1" ⟨["charitable cause"], "Weekly giving"⟩
            ⟨2024, 0, 15, 43200000⟩
            ⟨"donor1", 500, "USD", "weekly", "Weekly giving to a cause"⟩
            ⟨[], []⟩).1.createdAt.msOfDay ∧
      toEpochMs (createSubscription "sub_1" ⟨["charitable cause"], "Weekly giving"⟩
          ⟨2024, 0, 15, 43200000⟩
          ⟨"donor1", 500, "USD", "weekly", "Weekly giving to a cause"⟩
          ⟨[], []⟩).1.nextChargeAt
        = toEpochMs (createSubscription "sub_1" ⟨["charitable cause"], "Weekly giving"⟩
            ⟨2024, 0, 15, 43200000⟩
            ⟨"donor1", 500, "USD", "weekly", "Weekly giving to a cause"⟩
            ⟨[], []⟩).1.createdAt + 7 * 86400000) :=
  createSubscription_nextChargeAt "sub_1" ⟨["charitable cause"], "Weekly giving"⟩
    ⟨2024, 0, 15, 43200000⟩
    ⟨"donor1", 500, "USD", "weekly", "Weekly giving to a cause"⟩
    ⟨[], []⟩ (by decide)

/-- A concrete active subscription used by concrete-state theorems. -/
def demoSubscription : Subscription :=
  { id := "sub_demo0001"
    donorId := "donor1"
    amount := 500
    currency := "USD"
    interval := "weekly"
    campaignDescription := "Weekly giving to a cause"
    tags := ["charitable cause"]
    summary := "Weekly giving"
    createdAt := ⟨2024, 0, 15, 43200000⟩
    lastChargedAt := none
    nextChargeAt := ⟨2024, 0, 22, 43200000⟩
    isActive := true }

/-- A concrete one-subscription state. -/
def demoSubState : SubState :=
  { subscriptions := [("donor1", demoSubscription)], transactions := [] }

/-- C3 counterexample: cancelling an existing subscription twice returns
`true` both times — the record stays in the map with `isActive = false`,
so the second cancel still finds it and returns `true`, not `false` as
claimed. -/
theorem cancelSubscription_twice_counterexample :
    (cancelSubscription "donor1" demoSubState).1 = true ∧
    (cancelSubscription "donor1"
        (cancelSubscription "donor1" demoSubState).2).1 = true ∧
    ¬ (cancelSubscription "donor1"
        (cancelSubscription "donor1" demoSubState).2).1 = false := by
  refine ⟨rfl, rfl, ?_⟩
  decide

/-- C3 (amended): `cancelSubscription` returns `false` iff no record
exists for the donor (absence is a result value, never an exception in
this total model); when a record exists — active or already cancelled —
it sets `isActive := false` and returns `true`, so a double cancel of an
existing subscription returns `true` both times (the effect, not the
return value, is idempotent). -/
theorem cancelSubscription_semantics (st : SubState) (donorId : String) :
    (List.lookup donorId st.subscriptions = none →
      cancelSubscription donorId st = (false, st)) ∧
    (∀ sub, List.lookup donorId st.subscriptions = some sub →
      (cancelSubscription donorId st).1 = true ∧
      List.lookup donorId (cancelSubscription donorId st).2.subscriptions
        = some { sub with isActive := false } ∧
      (cancelSubscription donorId (cancelSubscription donorId st).2).1 = true) := by
  constructor
  · intro h
    unfold cancelSubscription
    rw [h]
  · intro sub h
    have h1 : cancelSubscription donorId st
        = (true, { st with
            subscriptions :=
              mapSet st.subscriptions donorId { sub with isActive := false } }) := by
      unfold cancelSubscription
      rw [h]
    have h2 : List.lookup donorId (cancelSubscription donorId st).2.subscriptions
        = some { sub with isActive := false } := by
      rw [h1]
      dsimp only
      rw [mapSet_lookup, if_pos rfl]
    refine ⟨by rw [h1], h2, ?_⟩
    have h3 : ∀ (st' : SubState) (x : Subscription),
        List.lookup donorId st'.subscriptions = some x →
        (cancelSubscription donorId st').1 = true := by
      intro st' x hx
      unfold cancelSubscription
      rw [hx]
    exact h3 _ _ h2

/-- Witness for C3's amended semantics on the concrete one-subscription
state and on a missing donor. -/
theorem cancelSubscription_semantics_witness :
    cancelSubscription "nobody" demoSubState = (false, demoSubState) ∧
    (cancelSubscription "donor1" demoSubState).1 = true ∧
    List.lookup "donor1" (cancelSubscription "donor1" demoSubState).2.subscriptions
      = some { demoSubscription with isActive := false } ∧
    (cancelSubscription "donor1" (cancelSubscription "donor1" demoSubState).2).1
      = true :=
  ⟨(cancelSubscription_semantics demoSubState "nobody").1 (by decide),
   ((cancelSubscription_semantics demoSubState "donor1").2 demoSubscription
      (by decide)).1,
   ((cancelSubscription_semantics demoSubState "donor1").2 demoSubscription
      (by decide)).2.1,
   ((cancelSubscription_semantics demoSubState "donor1").2 demoSubscription
      (by decide)).2.2⟩

/-- C10: `cancelSubscription` leaves the transaction ledger untouched,
leaves every other donor's map entry untouched, is the identity on the
state when the donor is absent, and when the donor is present rewrites
only that donor's record, preserving every field except `isActive`. -/
theorem cancelSubscription_frame (st : SubState) (donorId : String) :
    (cancelSubscription donorId st).2.transactions = st.transactions ∧
    (∀ d', d' ≠ donorId →
      List.lookup d' (cancelSubscription donorId st).2.subscriptions
        = List.lookup d' st.subscriptions) ∧
    (List.lookup donorId st.subscriptions = none →
      (cancelSubscription donorId st).2 = st) ∧
    (∀ sub, List.lookup donorId st.subscriptions = some sub →
      List.lookup donorId (cancelSubscription donorId st).2.subscriptions
        = some { sub with isActive := false } ∧
      ({ sub with isActive := false } : Subscription).id = sub.id ∧
      ({ sub with isActive := false } : Subscription).donorId = sub.donorId ∧
      ({ sub with isActive := false } : Subscription).amount = sub.amount ∧
      ({ sub with isActive := false } : Subscription).currency = sub.currency ∧
      ({ sub with isActive := false } : Subscription).interval = sub.interval ∧
      ({ sub with isActive := false } : Subscription).campaignDescription
        = sub.campaignDescription ∧
      ({ sub with isActive := false } : Subscription).tags = sub.tags ∧
      ({ sub with isActive := false } : Subscription).summary = sub.summary ∧
      ({ sub with isActive := false } : Subscription).createdAt = sub.createdAt ∧
      ({ sub with isActive := false } : Subscription).lastChargedAt
        = sub.lastChargedAt ∧
      ({ sub with isActive := false } : Subscription).nextChargeAt
        = sub.nextChargeAt ∧
      ({ sub with isActive := false } : Subscription).isActive = false) := by
  refine ⟨?_, fun d' hd' => ?_, fun h => ?_, fun sub h => ?_⟩
  · unfold cancelSubscription
    cases h : List.lookup donorId st.subscriptions <;> rfl
  · unfold cancelSubscription
    cases h : List.lookup donorId st.subscriptions with
    | none => rfl
    | some sub =>
      dsimp only
      rw [mapSet_lookup, if_neg hd']
  · unfold cancelSubscription
    rw [h]
  · unfold cancelSubscription
    rw [h]
    dsimp only
    rw [mapSet_lookup, if_pos rfl]
    exact ⟨rfl, rfl, rfl, rfl, rfl, rfl, rfl, rfl, rfl, rfl, rfl, rfl, rfl⟩

/-- Witness for C10 on the concrete one-subscription state. -/
theorem cancelSubscription_frame_witness :
    (cancelSubscription "donor1" demoSubState).2.transactions
      = demoSubState.transactions ∧
    List.lookup "donor2" (cancelSubscription "donor1" demoSubState).2.subscriptions
      = List.lookup "donor2" demoSubState.subscriptions ∧
    (cancelSubscription "nobody" demoSubState).2 = demoSubState ∧
    List.lookup "donor1" (cancelSubscription "donor1" demoSubState).2.subscriptions
      = some { demoSubscription with isActive := false } :=
  ⟨(cancelSubscription_frame demoSubState "donor1").1,
   (cancelSubscription_frame demoSubState "donor1").2.1 "donor2" (by decide),
   (cancelSubscription_frame demoSubState "nobody").2.2.1 (by decide),
   ((cancelSubscription_frame demoSubState "donor1").2.2.2 demoSubscription
      (by decide)).1⟩

/-! ## Payment service (`src/services/paymentService.ts`) -/

/-- `Transaction` ledger record (metadata fields inlined). -/
structure Transaction where
  id : String
  amount : Int
  currency : String
  source : String
  email : String
  provider : Provider
  status : TxStatus
  riskScore : ℚ
  explanation : String
  timestamp : Nat
  riskFactors : List String
  userAgent : String
  ipAddress : String
deriving DecidableEq, Repr

/-- `ChargeResponse` returned by `processCharge`. -/
structure ChargeResponse where
  transactionId : String
  provider : Provider
  status : TxStatus
  riskScore : ℚ
  explanation : String
deriving DecidableEq, Repr

/-- The mutable state of a `PaymentService` instance: the transaction
array and its `LLMService`'s cache. -/
structure PayState where
  transactions : List Transaction
  llmCache : LLMCache

/-- `PaymentService.processCharge` with its nondeterministic inputs made
explicit: jitter `j`, external-call outcome `call`, clock reading `now`
and generated id `txnId`. -/
def processCharge (rules : FraudRules) (cfg : LLMConfig) (j : ℚ)
    (call : LLMCallResult) (now : Nat) (txnId : String)
    (request : ChargeRequest) (st : PayState) : ChargeResponse × PayState :=
  let riskScore := calculateRiskScore rules j request
  let provider := determineProvider rules riskScore
  let riskFactors := getRiskFactors rules request
  let status := if provider = .blocked then TxStatus.blocked else TxStatus.success
  let expl := generatePaymentExplanation cfg now call request riskScore provider
    riskFactors st.llmCache
  let transaction : Transaction :=
    { id := txnId
      amount := request.amount
      currency := request.currency
      source := request.source
      email := request.email
      provider := provider
      status := status
      riskScore := riskScore
      explanation := expl.text
      timestamp := now
      riskFactors := riskFactors
      userAgent := "PaymentGatewayProxy/1.0"
      ipAddress := "127.0.0.1" }
  ({ transactionId := txnId
     provider := provider
     status := status
     riskScore := roundTo2 riskScore
     explanation := expl.text },
   { transactions := st.transactions ++ [transaction], llmCache := expl.cache })

/-- An operation on a `PaymentService` instance. -/
inductive PayOp where
  | charge (request : ChargeRequest) (j : ℚ) (call : LLMCallResult)
      (now : Nat) (txnId : String)
  | clearTransactions

/-- Apply one operation. -/
def applyPayOp (rules : FraudRules) (cfg : LLMConfig) (st : PayState) :
    PayOp → PayState
  | .charge request j call now txnId =>
    (processCharge rules cfg j call now txnId request st).2
  | .clearTransactions => { st with transactions := [] }

/-- Run a sequence of operations. -/
def runPayOps (rules : FraudRules) (cfg : LLMConfig) (st : PayState)
    (ops : List PayOp) : PayState :=
  ops.foldl (applyPayOp rules cfg) st

/-- The state of a freshly constructed `PaymentService`. -/
def initialPayState : PayState :=
  { transactions := [], llmCache := fun _ => none }

/-! ## Theorems for C9 and C8 -/

theorem processCharge_mem_transactions (rules : FraudRules) (cfg : LLMConfig)
    (j : ℚ) (call : LLMCallResult) (now : Nat) (txnId : String)
    (request : ChargeRequest) (st : PayState) (tx : Transaction)
    (htx : tx ∈ (processCharge rules cfg j call now txnId request st).2.transactions) :
    tx ∈ st.transactions ∨
      (tx.provider = determineProvider rules (calculateRiskScore rules j request) ∧
       tx.status = (if determineProvider rules (calculateRiskScore rules j request)
          = .blocked then TxStatus.blocked else TxStatus.success)) := by
  simp only [processCharge, List.mem_append, List.mem_singleton] at htx
  rcases htx with h | h
  · exact Or.inl h
  · subst h
    exact Or.inr ⟨rfl, rfl⟩

/-- C9: every transaction in the ledger, after any sequence of charges
and clears starting from the fresh service, is blocked-consistent:
`provider = blocked` exactly when `status = blocked`. -/
theorem ledger_blocked_iff (rules : FraudRules) (cfg : LLMConfig)
    (ops : List PayOp) (tx : Transaction)
    (htx : tx ∈ (runPayOps rules cfg initialPayState ops).transactions) :
    tx.provider = .blocked ↔ tx.status = .blocked := by
  suffices h : ∀ (st : PayState),
      (∀ t ∈ st.transactions, (t.provider = .blocked ↔ t.status = .blocked)) →
      ∀ t ∈ (runPayOps rules cfg st ops).transactions,
        (t.provider = .blocked ↔ t.status = .blocked) by
    exact h initialPayState (by intro t ht; cases ht) tx htx
  clear htx tx
  induction ops with
  | nil => exact fun st h => h
  | cons op rest ih =>
    intro st h
    apply ih
    intro t ht
    cases op with
    | clearTransactions =>
      simp only [runPayOps, applyPayOp] at ht
      cases ht
    | charge request j call now txnId =>
      rcases processCharge_mem_transactions rules cfg j call now txnId request
          st t ht with hmem | ⟨hp, hs⟩
      · exact h t hmem
      · rw [hp, hs]
        by_cases hb : determineProvider rules (calculateRiskScore rules j request)
            = Provider.blocked
        · simp [hb]
        · simp only [if_neg hb]
          constructor
          · intro hc; exact absurd hc hb
          · intro hc; cases hc

/-- Witness for C9: the single transaction of a concrete one-charge run
is blocked-consistent. -/
theorem ledger_blocked_iff_witness :
    ((runPayOps defaultFraudRules ⟨false, false, 300000⟩ initialPayState
        [PayOp.charge ⟨500, "USD", "tok_visa", "user@gmail.com"⟩ 0 .apiError 0
          "txn_1"]).transactions.head (List.cons_ne_nil _ _)).provider
        = .blocked
      ↔ ((runPayOps defaultFraudRules ⟨false, false, 300000⟩ initialPayState
        [PayOp.charge ⟨500, "USD", "tok_visa", "user@gmail.com"⟩ 0 .apiError 0
          "txn_1"]).transactions.head (List.cons_ne_nil _ _)).status
        = .blocked :=
  ledger_blocked_iff defaultFraudRules ⟨false, false, 300000⟩
    [PayOp.charge ⟨500, "USD", "tok_visa", "user@gmail.com"⟩ 0 .apiError 0
      "txn_1"] _ (List.head_mem _)

/-- C8: under the default rules, for every jitter value in `[0, 1/10)`
and any explanation configuration, the scenario charge
`{amount: 500, currency: USD, source: tok_visa, email: user@gmail.com}`
routes to stripe with status success, and both the raw risk score and
the 2-decimal-rounded score in the response are strictly below 0.3. -/
theorem charge_scenario_500_usd (cfg : LLMConfig) (call : LLMCallResult)
    (now : Nat) (txnId : String) (st : PayState) (j : ℚ)
    (hj0 : 0 ≤ j) (hj1 : j < 1/10) :
    calculateRiskScore defaultFraudRules j
        ⟨500, "USD", "tok_visa", "user@gmail.com"⟩ < 0.3 ∧
    (processCharge defaultFraudRules cfg j call now txnId
        ⟨500, "USD", "tok_visa", "user@gmail.com"⟩ st).1.provider = .stripe ∧
    (processCharge defaultFraudRules cfg j call now txnId
        ⟨500, "USD", "tok_visa", "user@gmail.com"⟩ st).1.status = .success ∧
    (processCharge defaultFraudRules cfg j call now txnId
        ⟨500, "USD", "tok_visa", "user@gmail.com"⟩ st).1.riskScore < 0.3 := by
  have hA : calculateAmountRisk defaultFraudRules 500 = 0.05 := by
    norm_num [calculateAmountRisk, defaultFraudRules]
  have hD : calculateDomainRisk defaultFraudRules "user@gmail.com" = 0 := by
    have h : (defaultFraudRules.suspiciousDomains.any fun domain =>
        strIncludes (strLower "user@gmail.com") (strLower domain)) = false := by
      decide
    simp only [calculateDomainRisk, h, Bool.false_eq_true, if_false]
  have hC : calculateCurrencyRisk "USD" = 0 := by
    have h2 : strUpper "USD" = "USD" := by decide
    have h1 : (["RUB", "CNY", "KRW"].contains "USD") = false := by decide
    simp only [calculateCurrencyRisk, h2, h1, Bool.false_eq_true, if_false,
      ne_eq, not_true_eq_false]
  have hS : calculateSourceRisk "tok_visa" = 0 := by
    have h : (strIncludes "tok_visa" "test" || strIncludes "tok_visa" "tok_test")
        = false := by decide
    simp only [calculateSourceRisk, h, Bool.false_eq_true, if_false]
  have hscore : calculateRiskScore defaultFraudRules j
      ⟨500, "USD", "tok_visa", "user@gmail.com"⟩ = j + 1/20 := by
    unfold calculateRiskScore
    dsimp only
    rw [hA, hD, hC, hS]
    rw [max_eq_left (by norm_num; linarith), min_eq_left (by norm_num; linarith)]
    norm_num
  have hprov : determineProvider defaultFraudRules (j + 1/20) = .stripe := by
    unfold determineProvider
    rw [if_neg (by norm_num [defaultFraudRules]; linarith),
      if_pos (by norm_num [defaultFraudRules]; linarith)]
  refine ⟨by rw [hscore]; linarith, ?_, ?_, ?_⟩
  · show determineProvider defaultFraudRules (calculateRiskScore defaultFraudRules j
        ⟨500, "USD", "tok_visa", "user@gmail.com"⟩) = .stripe
    rw [hscore, hprov]
  · show (if determineProvider defaultFraudRules (calculateRiskScore defaultFraudRules j
        ⟨500, "USD", "tok_visa", "user@gmail.com"⟩) = Provider.blocked
      then TxStatus.blocked else TxStatus.success) = .success
    rw [hscore, hprov]
    rfl
  · show roundTo2 (calculateRiskScore defaultFraudRules j
        ⟨500, "USD", "tok_visa", "user@gmail.com"⟩) < 0.3
    rw [hscore]
    unfold roundTo2 jsRound
    have h16 : ⌊(j + 1/20) * 100 + 1/2⌋ < (16 : ℤ) := by
      rw [Int.floor_lt]
      push_cast
      linarith
    have h16q : ((⌊(j + 1/20) * 100 + 1/2⌋ : ℤ) : ℚ) < 16 := by
      exact_mod_cast h16
    rw [div_lt_iff (by norm_num)]
    calc ((⌊(j + 1/20) * 100 + 1/2⌋ : ℤ) : ℚ) < 16 := h16q
    _ ≤ 0.3 * 100 := by norm_num

/-- Witness for C8 at jitter `1/20`. -/
theorem charge_scenario_500_usd_witness :
    calculateRiskScore defaultFraudRules (1/20)
        ⟨500, "USD", "tok_visa", "user@gmail.com"⟩ < 0.3 ∧
    (processCharge defaultFraudRules ⟨false, false, 300000⟩ (1/20) .apiError 0
        "txn_1" ⟨500, "USD", "tok_visa", "user@gmail.com"⟩
        initialPayState).1.provider = .stripe ∧
    (processCharge defaultFraudRules ⟨false, false, 300000⟩ (1/20) .apiError 0
        "txn_1" ⟨500, "USD", "tok_visa", "user@gmail.com"⟩
        initialPayState).1.status = .success ∧
    (processCharge defaultFraudRules ⟨false, false, 300000⟩ (1/20) .apiError 0
        "txn_1" ⟨500, "USD", "tok_visa", "user@gmail.com"⟩
        initialPayState).1.riskScore < 0.3 :=
  charge_scenario_500_usd ⟨false, false, 300000⟩ .apiError 0 "txn_1"
    initialPayState (1/20) (by norm_num) (by norm_num)

/-! ## Sweep analysis for C4 -/

/-- Number of recorded charge attempts against a donor (length of
`getTransactionsByDonor` before sorting). -/
def donorChargeAttempts (donorId : String) (st : SubState) : Nat :=
  (st.transactions.filter (fun t => t.donorId == donorId)).length

/-- Map entries are keyed by their subscription's `donorId` — the
invariant `subscriptions.set(request.donorId, subscription)` maintains. -/
def KeyOk (st : SubState) : Prop :=
  ∀ p ∈ st.subscriptions, (p.2).donorId = p.1

/-- The map entry for `d`, if any, is not yet due at `now`. -/
def NotDueAt (now : JsDate) (d : String) (st : SubState) : Prop :=
  ∀ x, List.lookup d st.subscriptions = some x →
    ¬ toEpochMs now ≥ toEpochMs x.nextChargeAt

theorem lookup_mem {β : Type} {l : List (String × β)} {k : String} {v : β}
    (h : List.lookup k l = some v) : (k, v) ∈ l := by
  induction l with
  | nil => cases h
  | cons p rest ih =>
    obtain ⟨a, b⟩ := p
    rw [lookup_cons] at h
    by_cases hk : k = a
    · rw [if_pos hk] at h
      injection h with h
      subst hk
      subst h
      exact List.mem_cons_self _ _
    · rw [if_neg hk] at h
      exact List.mem_cons_of_mem _ (ih h)

theorem mapSet_mem {β : Type} {l : List (String × β)} {k : String} {v : β}
    {p : String × β} (h : p ∈ mapSet l k v) : p = (k, v) ∨ p ∈ l := by
  induction l with
  | nil =>
    simp only [mapSet, List.mem_singleton] at h
    exact Or.inl h
  | cons q rest ih =>
    obtain ⟨a, b⟩ := q
    simp only [mapSet] at h
    split_ifs at h with hak
    · rcases List.mem_cons.mp h with h | h
      · exact Or.inl h
      · exact Or.inr (List.mem_cons_of_mem _ h)
    · rcases List.mem_cons.mp h with h | h
      · exact Or.inr (h ▸ List.mem_cons_self _ _)
      · rcases ih h with h | h
        · exact Or.inl h
        · exact Or.inr (List.mem_cons_of_mem _ h)

theorem KeyOk.lookup {st : SubState} (h : KeyOk st) {k : String}
    {x : Subscription} (hx : List.lookup k st.subscriptions = some x) :
    x.donorId = k :=
  h (k, x) (lookup_mem hx)

theorem mem_insertByNewest {x y : Subscription} {l : List Subscription} :
    y ∈ insertByNewest x l ↔ y = x ∨ y ∈ l := by
  induction l with
  | nil => simp [insertByNewest]
  | cons z rest ih =>
    simp only [insertByNewest]
    split_ifs
    · simp [List.mem_cons]
    · simp only [List.mem_cons, ih]
      tauto

theorem mem_sortByNewest {y : Subscription} {l : List Subscription} :
    y ∈ sortByNewest l ↔ y ∈ l := by
  induction l with
  | nil => simp [sortByNewest]
  | cons z rest ih =>
    simp only [sortByNewest, List.foldr] at ih ⊢
    rw [mem_insertByNewest, ih, List.mem_cons]

/-- Snapshot membership: the snapshot is exactly the active values. -/
theorem mem_getActiveSubscriptions {y : Subscription} {st : SubState} :
    y ∈ getActiveSubscriptions st
      ↔ y ∈ st.subscriptions.map Prod.snd ∧ y.isActive = true := by
  unfold getActiveSubscriptions
  rw [mem_sortByNewest, List.mem_filter]

theorem filter_append_singleton {α : Type} (p : α → Bool) (l : List α) (a : α) :
    (l ++ [a]).filter p = l.filter p ++ (if p a then [a] else []) := by
  rw [List.filter_append]
  by_cases h : p a <;> simp [h]

theorem chargeSubscription_transactions (env : SweepEnv) (now : JsDate)
    (s : SubState) (cur : Subscription) :
    ∃ txn : SubscriptionTransaction, txn.donorId = cur.donorId ∧
      (chargeSubscription env now s cur).transactions
        = s.transactions ++ [txn] := by
  unfold chargeSubscription
  dsimp only
  split_ifs <;> exact ⟨_, rfl, rfl⟩

theorem chargeSubscription_lookup (env : SweepEnv) (now : JsDate) (s : SubState)
    (cur : Subscription) (k : String) :
    List.lookup k (chargeSubscription env now s cur).subscriptions
      = if env.rand s.transactions.length = true then
          (if k = cur.donorId then
            some { cur with
                    lastChargedAt := some now
                    nextChargeAt := calculateNextChargeDate cur.interval now }
          else List.lookup k s.subscriptions)
        else List.lookup k s.subscriptions := by
  by_cases hs : env.rand s.transactions.length = true
  · rw [if_pos hs]
    unfold chargeSubscription
    dsimp only
    rw [if_pos hs]
    exact mapSet_lookup _ _ _ _
  · rw [if_neg hs]
    unfold chargeSubscription
    dsimp only
    rw [if_neg hs]

theorem mapSet_filter_ne {β : Type} (l : List (String × β)) {k : String}
    (v : β) {d : String} (hne : k ≠ d) :
    (mapSet l k v).filter (fun p => p.1 == d)
      = l.filter (fun p => p.1 == d) := by
  induction l with
  | nil =>
    simp [mapSet, List.filter, beq_eq_false_iff_ne.mpr hne]
  | cons q rest ih =>
    obtain ⟨a, b⟩ := q
    simp only [mapSet]
    split_ifs with hak
    · subst hak
      simp [List.filter, beq_eq_false_iff_ne.mpr hne]
    · simp only [List.filter]
      rw [ih]

theorem chargeSubscription_filter_ne (env : SweepEnv) (now : JsDate)
    (s : SubState) (cur : Subscription) {d : String} (hne : cur.donorId ≠ d) :
    (chargeSubscription env now s cur).subscriptions.filter (fun p => p.1 == d)
      = s.subscriptions.filter (fun p => p.1 == d) := by
  unfold chargeSubscription
  dsimp only
  split_ifs
  · exact mapSet_filter_ne _ _ hne
  · rfl

theorem chargeSubscription_keyOk {env : SweepEnv} {now : JsDate} {s : SubState}
    {cur : Subscription} (h : KeyOk s) :
    KeyOk (chargeSubscription env now s cur) := by
  intro p hp
  unfold chargeSubscription at hp
  dsimp only at hp
  by_cases hs : env.rand s.transactions.length = true
  · rw [if_pos hs] at hp
    dsimp only at hp
    rcases mapSet_mem hp with h1 | h1
    · subst h1
      rfl
    · exact h p h1
  · rw [if_neg hs] at hp
    exact h p hp

theorem sweepStep_keyOk {env : SweepEnv} {now : JsDate} {s : SubState}
    {sub : Subscription} (h : KeyOk s) : KeyOk (sweepStep env now s sub) := by
  unfold sweepStep
  cases hl : List.lookup sub.donorId s.subscriptions with
  | none => exact h
  | some cur =>
    dsimp only
    split_ifs with hdue
    · exact chargeSubscription_keyOk h
    · exact h

theorem sweepStep_of_ne {env : SweepEnv} {now : JsDate} {s : SubState}
    {sub : Subscription} {d : String} (h : KeyOk s) (hne : sub.donorId ≠ d) :
    donorChargeAttempts d (sweepStep env now s sub) = donorChargeAttempts d s ∧
    List.lookup d (sweepStep env now s sub).subscriptions
      = List.lookup d s.subscriptions ∧
    (sweepStep env now s sub).subscriptions.filter (fun p => p.1 == d)
      = s.subscriptions.filter (fun p => p.1 == d) := by
  unfold sweepStep
  cases hl : List.lookup sub.donorId s.subscriptions with
  | none => exact ⟨rfl, rfl, rfl⟩
  | some cur =>
    dsimp only
    split_ifs with hdue
    · have hcd : cur.donorId = sub.donorId := h.lookup hl
      have hcdne : cur.donorId ≠ d := by rw [hcd]; exact hne
      refine ⟨?_, ?_, chargeSubscription_filter_ne env now s cur hcdne⟩
      · obtain ⟨txn, htd, htr⟩ := chargeSubscription_transactions env now s cur
        unfold donorChargeAttempts
        rw [htr, filter_append_singleton,
          if_neg (by simp [htd, beq_eq_false_iff_ne.mpr hcdne])]
        simp
      · rw [chargeSubscription_lookup]
        split_ifs with hs hk
        · exact absurd hk.symm hcdne
        · rfl
        · rfl
    · exact ⟨rfl, rfl, rfl⟩

theorem sweepStep_of_notDue {env : SweepEnv} {now : JsDate} {s : SubState}
    {sub : Subscription} {d : String} (hd : sub.donorId = d)
    (hnd : NotDueAt now d s) : sweepStep env now s sub = s := by
  unfold sweepStep
  rw [hd]
  cases hl : List.lookup d s.subscriptions with
  | none => rfl
  | some cur =>
    dsimp only
    rw [if_neg (hnd cur hl)]

theorem sweepStep_of_charged {env : SweepEnv} {now : JsDate} {s : SubState}
    {sub : Subscription} {d : String} (h : KeyOk s) (hv : ValidDate now)
    (hsucc : ∀ n, env.rand n = true) (hd : sub.donorId = d)
    (cur : Subscription) (hl : List.lookup d s.subscriptions = some cur)
    (hdue : toEpochMs now ≥ toEpochMs cur.nextChargeAt) :
    donorChargeAttempts d (sweepStep env now s sub)
      = donorChargeAttempts d s + 1 ∧
    NotDueAt now d (sweepStep env now s sub) := by
  have hstep : sweepStep env now s sub = chargeSubscription env now s cur := by
    unfold sweepStep
    rw [hd, hl]
    dsimp only
    rw [if_pos hdue]
  rw [hstep]
  constructor
  · obtain ⟨txn, htd, htr⟩ := chargeSubscription_transactions env now s cur
    unfold donorChargeAttempts
    rw [htr, filter_append_singleton,
      if_pos (by simp [htd, h.lookup hl])]
    simp
  · intro x hx
    rw [chargeSubscription_lookup, if_pos (hsucc _),
      if_pos (h.lookup hl).symm] at hx
    injection hx with hx
    subst hx
    exact not_le.mpr (toEpochMs_calculateNextChargeDate_gt cur.interval now hv)

theorem sweepFold_keyOk (env : SweepEnv) (now : JsDate) :
    ∀ (l : List Subscription) (s : SubState), KeyOk s →
      KeyOk (l.foldl (sweepStep env now) s) := by
  intro l
  induction l with
  | nil => exact fun s h => h
  | cons sub rest ih =>
    intro s h
    exact ih _ (sweepStep_keyOk h)

theorem sweepFold_notDue (env : SweepEnv) (now : JsDate) (d : String) :
    ∀ (l : List Subscription) (s : SubState), KeyOk s → NotDueAt now d s →
      donorChargeAttempts d (l.foldl (sweepStep env now) s)
          = donorChargeAttempts d s ∧
        NotDueAt now d (l.foldl (sweepStep env now) s) := by
  intro l
  induction l with
  | nil => exact fun s _ hnd => ⟨rfl, hnd⟩
  | cons sub rest ih =>
    intro s h hnd
    rw [List.foldl_cons]
    by_cases hd : sub.donorId = d
    · rw [sweepStep_of_notDue hd hnd]
      exact ih s h hnd
    · obtain ⟨ha, hl, _⟩ := sweepStep_of_ne h hd
    
      have hnd' : NotDueAt now d (sweepStep env now s sub) := by
        intro x hx
        rw [hl] at hx
        exact hnd x hx
      obtain ⟨ha2, hnd2⟩ := ih _ (sweepStep_keyOk h) hnd'
      exact ⟨by rw [ha2, ha], hnd2⟩

theorem sweepFold_le (env : SweepEnv) (now : JsDate) (d : String)
    (hv : ValidDate now) (hsucc : ∀ n, env.rand n = true) :
    ∀ (l : List Subscription) (s : SubState), KeyOk s →
      donorChargeAttempts d (l.foldl (sweepStep env now) s)
        ≤ donorChargeAttempts d s + 1 := by
  intro l
  induction l with
  | nil => exact fun s _ => Nat.le_succ _
  | cons sub rest ih =>
    intro s h
    rw [List.foldl_cons]
    by_cases hd : sub.donorId = d
    · cases hl : List.lookup d s.subscriptions with
      | none =>
        have hstep : sweepStep env now s sub = s := by
          unfold sweepStep
          rw [hd, hl]
        rw [hstep]
        exact ih s h
      | some cur =>
        by_cases hdue : toEpochMs now ≥ toEpochMs cur.nextChargeAt
        · obtain ⟨h1, h2⟩ := sweepStep_of_charged h hv hsucc hd cur hl hdue
          obtain ⟨h3, _⟩ :=
            sweepFold_notDue env now d rest _ (sweepStep_keyOk h) h2
          rw [h3, h1]
        · have hstep : sweepStep env now s sub = s := by
            unfold sweepStep
            rw [hd, hl]
            dsimp only
            rw [if_neg hdue]
          rw [hstep]
          exact ih s h
    · obtain ⟨ha, _, _⟩ := sweepStep_of_ne h hd
      calc donorChargeAttempts d (rest.foldl (sweepStep env now)
            (sweepStep env now s sub))
          ≤ donorChargeAttempts d (sweepStep env now s sub) + 1 :=
            ih _ (sweepStep_keyOk h)
        _ = donorChargeAttempts d s + 1 := by rw [ha]

theorem sweepFold_covered (env : SweepEnv) (now : JsDate) (d : String)
    (hv : ValidDate now) (hsucc : ∀ n, env.rand n = true) :
    ∀ (l : List Subscription) (s : SubState), KeyOk s →
      (∀ x, List.lookup d s.subscriptions = some x →
        toEpochMs now ≥ toEpochMs x.nextChargeAt →
        d ∈ l.map (·.donorId)) →
      NotDueAt now d (l.foldl (sweepStep env now) s) := by
  intro l
  induction l with
  | nil =>
    intro s _ hcov x hx hdue
    exact absurd (hcov x hx hdue) (by simp)
  | cons sub rest ih =>
    intro s h hcov
    rw [List.foldl_cons]
    by_cases hd : sub.donorId = d
    · cases hl : List.lookup d s.subscriptions with
      | none =>
        have hstep : sweepStep env now s sub = s := by
          unfold sweepStep
          rw [hd, hl]
        rw [hstep]
        have hnd : NotDueAt now d s := by
          intro x hx
          rw [hl] at hx
          cases hx
        exact (sweepFold_notDue env now d rest s h hnd).2
      | some cur =>
        by_cases hdue : toEpochMs now ≥ toEpochMs cur.nextChargeAt
        · obtain ⟨_, h2⟩ := sweepStep_of_charged h hv hsucc hd cur hl hdue
          exact (sweepFold_notDue env now d rest _ (sweepStep_keyOk h) h2).2
        · have hnd : NotDueAt now d s := by
            intro x hx
            rw [hl] at hx
            cases hx
            exact hdue
          rw [sweepStep_of_notDue hd hnd]
          exact (sweepFold_notDue env now d rest s h hnd).2
    · obtain ⟨_, hl, _⟩ := sweepStep_of_ne h hd
      apply ih _ (sweepStep_keyOk h)
      intro x hx hdue
      rw [hl] at hx
      have := hcov x hx hdue
      simp only [List.map_cons, List.mem_cons] at this
      rcases this with h1 | h1
      · exact absurd h1.symm hd
      · simpa using h1

theorem sweepFold_not_mem (env : SweepEnv) (now : JsDate) (d : String) :
    ∀ (l : List Subscription) (s : SubState), KeyOk s →
      d ∉ l.map (·.donorId) →
      donorChargeAttempts d (l.foldl (sweepStep env now) s)
          = donorChargeAttempts d s ∧
        (l.foldl (sweepStep env now) s).subscriptions.filter
            (fun p => p.1 == d)
          = s.subscriptions.filter (fun p => p.1 == d) := by
  intro l
  induction l with
  | nil => exact fun s _ _ => ⟨rfl, rfl⟩
  | cons sub rest ih =>
    intro s h hmem
    simp only [List.map_cons, List.mem_cons, not_or] at hmem
    obtain ⟨hne, hrest⟩ := hmem
    have hd : sub.donorId ≠ d := fun hh => hne hh.symm
    obtain ⟨ha, _, hf⟩ := sweepStep_of_ne h hd
    rw [List.foldl_cons]
    obtain ⟨ha2, hf2⟩ := ih _ (sweepStep_keyOk h) (by simpa using hrest)
    exact ⟨by rw [ha2, ha], by rw [hf2, hf]⟩

/-- C4 (amended): when every simulated charge succeeds, running two
sweeps back-to-back at the same instant records at most one charge
attempt per donor beyond the prior ledger: a successful charge advances
`nextChargeAt` strictly past `now`, so the second sweep finds nothing
due.  (When a charge fails the subscription stays due and the second
sweep attempts it again — see the counterexample.)  The state is assumed
key-consistent (every map entry is keyed by its subscription's donor id,
as `createSubscription` maintains) and the sweep instant calendar-valid. -/
theorem recurring_sweeps_at_most_once (env : SweepEnv) (now : JsDate)
    (st : SubState) (d : String) (hv : ValidDate now)
    (hsucc : ∀ n, env.rand n = true) (hkeys : KeyOk st) :
    donorChargeAttempts d
        (triggerChargeProcessing env now (triggerChargeProcessing env now st))
      ≤ donorChargeAttempts d st + 1 := by
  have e0 : processRecurringCharges env now st
      = (getActiveSubscriptions st).foldl (sweepStep env now) st := rfl
  have e1 : triggerChargeProcessing env now (triggerChargeProcessing env now st)
      = (getActiveSubscriptions (processRecurringCharges env now st)).foldl
          (sweepStep env now) (processRecurringCharges env now st) := rfl
  rw [e1]
  have hK1 : KeyOk (processRecurringCharges env now st) :=
    sweepFold_keyOk env now _ st hkeys
  have h1 : donorChargeAttempts d (processRecurringCharges env now st)
      ≤ donorChargeAttempts d st + 1 :=
    sweepFold_le env now d hv hsucc _ st hkeys
  by_cases hin : d ∈ (getActiveSubscriptions st).map (·.donorId)
  · have hnd1 : NotDueAt now d (processRecurringCharges env now st) :=
      sweepFold_covered env now d hv hsucc _ st hkeys (fun x _ _ => hin)
    have h2 := (sweepFold_notDue env now d
      (getActiveSubscriptions (processRecurringCharges env now st))
      (processRecurringCharges env now st) hK1 hnd1).1
    rw [h2]
    exact h1
  · obtain ⟨hA, hF⟩ := sweepFold_not_mem env now d _ st hkeys hin
    have hout2 : d ∉ (getActiveSubscriptions
        (processRecurringCharges env now st)).map (·.donorId) := by
      intro hmem
      obtain ⟨y, hy, hyd⟩ := List.mem_map.mp hmem
      obtain ⟨hyv, hya⟩ := mem_getActiveSubscriptions.mp hy
      obtain ⟨p, hp, hpy⟩ := List.mem_map.mp hyv
      have hkey : p.1 = d := by rw [← hK1 p hp, hpy, hyd]
      have hpf : p ∈ (processRecurringCharges env now st).subscriptions.filter
          (fun q => q.1 == d) :=
        List.mem_filter.mpr ⟨hp, by rw [hkey]; simp⟩
      rw [e0, hF] at hpf
      have hp0 : p ∈ st.subscriptions := (List.mem_filter.mp hpf).1
      have hys : y ∈ getActiveSubscriptions st :=
        mem_getActiveSubscriptions.mpr ⟨List.mem_map.mpr ⟨p, hp0, hpy⟩, hya⟩
      exact hin (List.mem_map.mpr ⟨y, hys, hyd⟩)
    obtain ⟨hA2, _⟩ := sweepFold_not_mem env now d _
      (processRecurringCharges env now st) hK1 hout2
    rw [hA2, e0, hA]
    exact Nat.le_succ _

/-- All-success sweep environment for concrete runs. -/
def sweepSuccEnv : SweepEnv := { rand := fun _ => true, txnId := fun _ => "txn_ok" }

/-- All-failure sweep environment for concrete runs. -/
def sweepFailEnv : SweepEnv := { rand := fun _ => false, txnId := fun _ => "txn_fail" }

/-- A sweep instant. -/
def dueDemoDate : JsDate := ⟨1, 0, 15, 0⟩

/-- A subscription due exactly at `dueDemoDate`. -/
def dueDemoSubscription : Subscription :=
  { id := "sub_due0001"
    donorId := "donor1"
    amount := 500
    currency := "USD"
    interval := "weekly"
    campaignDescription := "Weekly giving to a cause"
    tags := ["charitable cause"]
    summary := "Weekly giving"
    createdAt := ⟨1, 0, 8, 0⟩
    lastChargedAt := none
    nextChargeAt := ⟨1, 0, 15, 0⟩
    isActive := true }

/-- A state with one due subscription and an empty ledger. -/
def dueDemoState : SubState :=
  { subscriptions := [("donor1", dueDemoSubscription)], transactions := [] }

/-- C4 counterexample: with a failing simulated charge, two back-to-back
sweeps at the same instant record **two** charge attempts against the
same due subscription — a failed charge leaves `nextChargeAt` unchanged,
so the second sweep (there is no reentrancy guard) charges it again. -/
theorem recurring_sweeps_twice_counterexample :
    donorChargeAttempts "donor1"
        (triggerChargeProcessing sweepFailEnv dueDemoDate
          (triggerChargeProcessing sweepFailEnv dueDemoDate dueDemoState)) = 2 ∧
    ¬ donorChargeAttempts "donor1"
        (triggerChargeProcessing sweepFailEnv dueDemoDate
          (triggerChargeProcessing sweepFailEnv dueDemoDate dueDemoState)) ≤ 1 := by
  refine ⟨?_, ?_⟩ <;> decide

/-- Witness for C4's amended statement on the concrete due state with
all charges succeeding. -/
theorem recurring_sweeps_at_most_once_witness :
    donorChargeAttempts "donor1"
        (triggerChargeProcessing sweepSuccEnv dueDemoDate
          (triggerChargeProcessing sweepSuccEnv dueDemoDate dueDemoState))
      ≤ donorChargeAttempts "donor1" dueDemoState + 1 :=
  recurring_sweeps_at_most_once sweepSuccEnv dueDemoDate dueDemoState "donor1"
    (by decide) (fun _ => rfl)
    (by
      intro p hp
      simp only [dueDemoState] at hp
      rw [List.mem_singleton] at hp
      subst hp
      rfl)
